import Mathlib

/-!
Verification of the lighting-fixture layout calculator of the ArucoReader
repository (FormScreen: `handleCalculate` and `renderFocusGrid`).

The JavaScript arithmetic is embedded over exact rationals `ℚ`. `Math.ceil`
on a rational value is `Int.ceil`; `Math.ceil(Math.sqrt n)` on a natural
number `n` is the computable `ceilSqrt` below. A `parseFloat` result is
modelled as `Option ℚ`, with `none` standing for `NaN`. Where JavaScript
would produce `NaN` from `0 / 0` (the `numFoci = 0` corner, where the loop
bound becomes `NaN` and the loop body never runs) the embedding produces `0`
as the loop bound, so the loop body never runs in the embedding either.
-/

/-- A fixture position, the `{ x, y }` objects pushed into
`calculatedDistances` by `handleCalculate`. -/
structure Position where
  x : ℚ
  y : ℚ
deriving DecidableEq

/-- `Math.ceil (Math.sqrt n)` for a natural number `n`, computed exactly:
the least natural `c` with `n ≤ c ^ 2`. -/
def ceilSqrt (n : ℕ) : ℕ :=
  if Nat.sqrt n * Nat.sqrt n = n then Nat.sqrt n else Nat.sqrt n + 1

/-- `const numCols = Math.ceil(Math.sqrt(numFoci));` (line 276). -/
def numColsOf (numFoci : ℕ) : ℕ := ceilSqrt numFoci

/-- `const numRows = Math.ceil(numFoci / numCols);` (line 277). -/
def numRowsOf (numFoci : ℕ) : ℕ :=
  (⌈(numFoci : ℚ) / (numColsOf numFoci : ℚ)⌉).toNat

/-- The exact cell-centre position of grid cell `(row, col)`:
`x = edgeDistanceX + col * spacingX`, `y = edgeDistanceY + row * spacingY`
with `spacingX = width / numCols`, `spacingY = height / numRows`,
`edgeDistanceX = spacingX / 2`, `edgeDistanceY = spacingY / 2`. -/
def posAt (width height : ℚ) (numFoci : ℕ) (row col : ℕ) : Position :=
  ⟨width / (numColsOf numFoci : ℚ) / 2 + (col : ℚ) * (width / (numColsOf numFoci : ℚ)),
   height / (numRowsOf numFoci : ℚ) / 2 + (row : ℚ) * (height / (numRowsOf numFoci : ℚ))⟩

/-- Lines 268-272 of `handleCalculate`:
`requiredLumens = luxesValue * area` with `area = width * height`,
`calculatedFocusCount = requiredLumens / lumensValue`,
`numFoci = Math.ceil(calculatedFocusCount)`.
Argument order follows the spec contract
`computeFixtureCount(width, height, requiredIlluminance, luminousOutputPerFixture)`. -/
def computeFixtureCount (width height requiredIlluminance luminousOutputPerFixture : ℚ) : ℤ :=
  ⌈requiredIlluminance * (width * height) / luminousOutputPerFixture⌉

/-- The nested placement loop of `handleCalculate` (lines 276-298): rows
outer, columns inner, each computed `(x, y)` pushed only when
`x <= width && y <= height`. -/
def computePositions (width height : ℚ) (numFoci : ℕ) : List Position :=
  let numCols := numColsOf numFoci
  let numRows := numRowsOf numFoci
  let spacingX := width / (numCols : ℚ)
  let spacingY := height / (numRows : ℚ)
  let edgeDistanceX := spacingX / 2
  let edgeDistanceY := spacingY / 2
  (List.range numRows).flatMap fun (row : ℕ) =>
    (List.range numCols).filterMap fun (col : ℕ) =>
      let x := edgeDistanceX + (col : ℚ) * spacingX
      let y := edgeDistanceY + (row : ℚ) * spacingY
      if x ≤ width ∧ y ≤ height then some ⟨x, y⟩ else none

/-- Outcome of one press of the Calculate button: either the validation
alert (`Alert.alert` + early return, lines 262-265) or the computed focus
count and distances. -/
inductive CalcOutcome where
  | invalidInput : CalcOutcome
  | ok (focusCount : ℤ) (distances : List Position) : CalcOutcome
deriving DecidableEq

/-- The validation test of line 262:
`isNaN(lumensValue) || isNaN(luxesValue) || lumensValue <= 0 || luxesValue <= 0`,
with `none` standing for `NaN`. -/
def validationFails (lumensValue luxesValue : Option ℚ) : Bool :=
  match lumensValue, luxesValue with
  | some lv, some uv => decide (lv ≤ 0 ∨ uv ≤ 0)
  | _, _ => true

/-- `handleCalculate` (lines 256-299) after parsing: validate, then compute
`numFoci` and the placement list. `numFoci.toNat` feeds the integer focus
count to the natural-number grid loop; for the unvalidated degenerate case
`numFoci ≤ 0` both the JavaScript loop (`NaN` or zero bounds) and the
embedding produce an empty list. -/
def handleCalculate (width height : ℚ) (lumensValue luxesValue : Option ℚ) : CalcOutcome :=
  match lumensValue, luxesValue with
  | some lv, some uv =>
    if lv ≤ 0 ∨ uv ≤ 0 then CalcOutcome.invalidInput
    else
      let numFoci := computeFixtureCount width height uv lv
      CalcOutcome.ok numFoci (computePositions width height numFoci.toNat)
  | _, _ => CalcOutcome.invalidInput

/-- The two pieces of result state of `FormScreen`: `focusCount` and
`distances`, both `null` before the first successful calculation. -/
structure FormState where
  focusCount : Option ℤ
  distances : Option (List Position)
deriving DecidableEq

/-- The state transition of one press of Calculate: on validation failure
`handleCalculate` returns before any `setFocusCount` / `setDistances` call,
so the previous state is kept; on success both fields are replaced. -/
def applyCalculate (width height : ℚ) (lumensValue luxesValue : Option ℚ)
    (s : FormState) : FormState :=
  match handleCalculate width height lumensValue luxesValue with
  | CalcOutcome.invalidInput => s
  | CalcOutcome.ok n ps => ⟨some n, some ps⟩

/-- `renderFocusGrid` (lines 307-347), modelled as the list of `(left, top)`
coordinates of the dots it pushes into `grid`: same grid shape and
cell-centre arithmetic as `handleCalculate`, over the scaled container
dimensions `containerWidth = screenWidth - 40` and
`containerHeight = containerWidth / (width / height)`. -/
def renderFocusGrid (screenWidth width height : ℚ) (numFoci : ℕ) : List Position :=
  if numFoci = 0 then []
  else
    let aspectRatio := width / height
    let containerWidth := screenWidth - 40
    let containerHeight := containerWidth / aspectRatio
    let numCols := numColsOf numFoci
    let numRows := numRowsOf numFoci
    let spacingX := containerWidth / (numCols : ℚ)
    let spacingY := containerHeight / (numRows : ℚ)
    let edgeDistanceX := spacingX / 2
    let edgeDistanceY := spacingY / 2
    (List.range numRows).flatMap fun (row : ℕ) =>
      (List.range numCols).filterMap fun (col : ℕ) =>
        let x := edgeDistanceX + (col : ℚ) * spacingX
        let y := edgeDistanceY + (row : ℚ) * spacingY
        if x ≤ containerWidth ∧ y ≤ containerHeight then some ⟨x, y⟩ else none

/-! ### Properties of `ceilSqrt` -/

lemma le_ceilSqrt_mul_self (n : ℕ) : n ≤ ceilSqrt n * ceilSqrt n := by
  unfold ceilSqrt
  split
  · omega
  · exact Nat.le_of_lt (Nat.lt_succ_sqrt n)

lemma ceilSqrt_le {n k : ℕ} (h : n ≤ k * k) : ceilSqrt n ≤ k := by
  unfold ceilSqrt
  split
  · calc Nat.sqrt n ≤ Nat.sqrt (k * k) := Nat.sqrt_le_sqrt h
    _ = k := Nat.sqrt_eq k
  · by_contra hlt
    have hk : k ≤ Nat.sqrt n := by omega
    have h1 : k * k ≤ Nat.sqrt n * Nat.sqrt n := Nat.mul_le_mul hk hk
    have h2 : Nat.sqrt n * Nat.sqrt n ≤ n := Nat.sqrt_le n
    omega

lemma ceilSqrt_eval {n c : ℕ} (h1 : n ≤ c * c) (h2 : c = 0 ∨ (c - 1) * (c - 1) < n) :
    ceilSqrt n = c := by
  refine Nat.le_antisymm (ceilSqrt_le h1) ?_
  rcases h2 with h2 | h2
  · omega
  · by_contra hlt
    have hle : ceilSqrt n ≤ c - 1 := by omega
    have := le_ceilSqrt_mul_self n
    have : n ≤ (c - 1) * (c - 1) :=
      le_trans this (Nat.mul_le_mul hle hle)
    omega

lemma ceilSqrt_pos {n : ℕ} (hn : 1 ≤ n) : 0 < ceilSqrt n := by
  by_contra h
  have hc : ceilSqrt n = 0 := by omega
  have hle := le_ceilSqrt_mul_self n
  rw [hc] at hle
  omega

lemma ceilSqrt_pred_lt {n : ℕ} (hn : 1 ≤ n) :
    (ceilSqrt n - 1) * (ceilSqrt n - 1) < n := by
  by_contra h
  have hle : n ≤ (ceilSqrt n - 1) * (ceilSqrt n - 1) := by omega
  have h1 : ceilSqrt n ≤ ceilSqrt n - 1 := ceilSqrt_le hle
  have h2 : 0 < ceilSqrt n := ceilSqrt_pos hn
  omega

/-! ### Properties of `numColsOf` and `numRowsOf` -/

lemma numColsOf_pos {n : ℕ} (hn : 1 ≤ n) : 0 < numColsOf n := ceilSqrt_pos hn

lemma numRowsOf_cast {n : ℕ} (hn : 1 ≤ n) :
    (numRowsOf n : ℤ) = ⌈(n : ℚ) / (numColsOf n : ℚ)⌉ := by
  have hc : (0 : ℚ) < (numColsOf n : ℚ) := by exact_mod_cast numColsOf_pos hn
  have hq : (0 : ℚ) < (n : ℚ) / (numColsOf n : ℚ) :=
    div_pos (by exact_mod_cast hn) hc
  exact Int.toNat_of_nonneg (le_of_lt (Int.ceil_pos.mpr hq))

lemma numRowsOf_pos {n : ℕ} (hn : 1 ≤ n) : 0 < numRowsOf n := by
  have hc : (0 : ℚ) < (numColsOf n : ℚ) := by exact_mod_cast numColsOf_pos hn
  have hq : (0 : ℚ) < (n : ℚ) / (numColsOf n : ℚ) :=
    div_pos (by exact_mod_cast hn) hc
  have : 0 < ⌈(n : ℚ) / (numColsOf n : ℚ)⌉ := Int.ceil_pos.mpr hq
  unfold numRowsOf
  omega

lemma le_numRowsOf_mul {n : ℕ} (hn : 1 ≤ n) : n ≤ numRowsOf n * numColsOf n := by
  have hc : (0 : ℚ) < (numColsOf n : ℚ) := by exact_mod_cast numColsOf_pos hn
  have h1 : ((n : ℚ) / (numColsOf n : ℚ)) ≤ ((numRowsOf n : ℤ) : ℚ) := by
    rw [numRowsOf_cast hn]; exact Int.le_ceil _
  have h2 : (n : ℚ) ≤ (numRowsOf n : ℚ) * (numColsOf n : ℚ) := by
    rw [div_le_iff₀ hc] at h1
    exact_mod_cast h1
  exact_mod_cast h2

lemma numRowsOf_le {n k : ℕ} (hn : 1 ≤ n) (h : n ≤ k * numColsOf n) :
    numRowsOf n ≤ k := by
  have hc : (0 : ℚ) < (numColsOf n : ℚ) := by exact_mod_cast numColsOf_pos hn
  have h1 : (n : ℚ) / (numColsOf n : ℚ) ≤ (k : ℚ) := by
    rw [div_le_iff₀ hc]
    exact_mod_cast h
  have h2 : ⌈(n : ℚ) / (numColsOf n : ℚ)⌉ ≤ (k : ℤ) := Int.ceil_le.mpr (by exact_mod_cast h1)
  have := numRowsOf_cast hn
  omega

lemma numRowsOf_eval {n r : ℕ} (hn : 1 ≤ n)
    (h1 : n ≤ r * numColsOf n) (h2 : (r - 1) * numColsOf n < n) : numRowsOf n = r := by
  refine Nat.le_antisymm (numRowsOf_le hn h1) ?_
  by_contra hlt
  have hle : numRowsOf n ≤ r - 1 := by omega
  have := le_numRowsOf_mul hn
  have : n ≤ (r - 1) * numColsOf n :=
    le_trans this (Nat.mul_le_mul_right _ hle)
  omega

lemma numColsOf_zero : numColsOf 0 = 0 :=
  ceilSqrt_eval (by omega) (Or.inl rfl)

lemma numRowsOf_zero : numRowsOf 0 = 0 := by
  unfold numRowsOf
  norm_num

/-! ### Generic lemmas about the nested placement loop -/

lemma filterMap_ite_eq_map {α : Type*} {p : ℕ → Prop} [DecidablePred p] {g : ℕ → α} :
    ∀ {l : List ℕ}, (∀ j ∈ l, p j) →
      (l.filterMap fun j => if p j then some (g j) else none) = l.map g := by
  intro l
  induction l with
  | nil => intro _; rfl
  | cons a t ih =>
    intro hmem
    have ha : p a := hmem a (by simp)
    simp only [List.filterMap_cons, if_pos ha, List.map_cons]
    rw [ih fun j hj => hmem j (by simp [hj])]

lemma flatMap_congr_mem {α β : Type*} {f g : α → List β} :
    ∀ {l : List α}, (∀ a ∈ l, f a = g a) → l.flatMap f = l.flatMap g := by
  intro l
  induction l with
  | nil => intro _; rfl
  | cons a t ih =>
    intro hmem
    simp only [List.flatMap_cons]
    rw [hmem a (by simp), ih fun b hb => hmem b (by simp [hb])]

lemma length_range_flatMap_map {α : Type*} (f : ℕ → ℕ → α) (r c : ℕ) :
    ((List.range r).flatMap fun i => (List.range c).map (f i)).length = r * c := by
  induction r with
  | zero => simp
  | succ r ih =>
    rw [List.range_succ, List.flatMap_append]
    simp only [List.flatMap_cons, List.flatMap_nil, List.append_nil, List.length_append, ih,
      List.length_map, List.length_range]
    ring

lemma range_flatMap_map_eq {α : Type*} (f : ℕ → ℕ → α) (r c : ℕ) (hc : 0 < c) :
    ((List.range r).flatMap fun i => (List.range c).map (f i)) =
      (List.range (r * c)).map fun k => f (k / c) (k % c) := by
  induction r with
  | zero => simp
  | succ r ih =>
    rw [List.range_succ, List.flatMap_append, ih]
    have h1 : (r + 1) * c = r * c + c := by ring
    rw [h1, List.range_add, List.map_append, List.map_map]
    congr 1
    · simp only [List.flatMap_cons, List.flatMap_nil, List.append_nil]
      refine (List.map_congr_left ?_).symm
      intro x hx
      rw [List.mem_range] at hx
      have hdiv : (r * c + x) / c = r := by
        rw [Nat.add_comm, Nat.mul_comm, Nat.add_mul_div_left x r hc, Nat.div_eq_of_lt hx]
        omega
      have hmod : (r * c + x) % c = x := by
        rw [Nat.add_comm, Nat.mul_comm, Nat.add_mul_mod_self_left, Nat.mod_eq_of_lt hx]
      simp [Function.comp, hdiv, hmod]

/-! ### Structure of `computePositions` -/

lemma computePositions_rw (w h : ℚ) (n : ℕ) :
    computePositions w h n =
      (List.range (numRowsOf n)).flatMap fun row =>
        (List.range (numColsOf n)).filterMap fun col =>
          if (posAt w h n row col).x ≤ w ∧ (posAt w h n row col).y ≤ h
          then some (posAt w h n row col) else none := by
  simp only [computePositions, posAt]

lemma cell_coord_lt {W : ℚ} (hW : 0 < W) {c col : ℕ} (hc : 0 < c) (hcol : col < c) :
    W / (c : ℚ) / 2 + (col : ℚ) * (W / (c : ℚ)) < W := by
  have hcq : (0 : ℚ) < (c : ℚ) := by exact_mod_cast hc
  have hs : 0 < W / (c : ℚ) := div_pos hW hcq
  have hrw : W / (c : ℚ) / 2 + (col : ℚ) * (W / (c : ℚ)) =
      ((col : ℚ) + 1 / 2) * (W / (c : ℚ)) := by ring
  rw [hrw]
  have h1 : ((col : ℚ) + 1 / 2) < (c : ℚ) := by
    have : (col : ℚ) + 1 ≤ (c : ℚ) := by exact_mod_cast hcol
    linarith
  calc ((col : ℚ) + 1 / 2) * (W / (c : ℚ)) < (c : ℚ) * (W / (c : ℚ)) :=
        mul_lt_mul_of_pos_right h1 hs
  _ = W := by field_simp

lemma cell_coord_nonneg {W : ℚ} (hW : 0 ≤ W) (c col : ℕ) :
    0 ≤ W / (c : ℚ) / 2 + (col : ℚ) * (W / (c : ℚ)) := by
  have hs : 0 ≤ W / (c : ℚ) := div_nonneg hW (by positivity)
  positivity

lemma posAt_x_lt {w : ℚ} (h : ℚ) {n : ℕ} (hw : 0 < w) (hn : 1 ≤ n)
    {col : ℕ} (hcol : col < numColsOf n) (row : ℕ) :
    (posAt w h n row col).x < w :=
  cell_coord_lt hw (numColsOf_pos hn) hcol

lemma posAt_y_lt (w : ℚ) {h : ℚ} {n : ℕ} (hh : 0 < h) (hn : 1 ≤ n)
    {row : ℕ} (hrow : row < numRowsOf n) (col : ℕ) :
    (posAt w h n row col).y < h :=
  cell_coord_lt hh (numRowsOf_pos hn) hrow

lemma computePositions_eq_map {w h : ℚ} {n : ℕ} (hw : 0 < w) (hh : 0 < h) (hn : 1 ≤ n) :
    computePositions w h n =
      (List.range (numRowsOf n)).flatMap fun row =>
        (List.range (numColsOf n)).map fun col => posAt w h n row col := by
  rw [computePositions_rw]
  apply flatMap_congr_mem
  intro row hrow
  rw [List.mem_range] at hrow
  apply filterMap_ite_eq_map
  intro col hcol
  rw [List.mem_range] at hcol
  exact ⟨le_of_lt (posAt_x_lt h hw hn hcol row), le_of_lt (posAt_y_lt w hh hn hrow col)⟩

lemma computePositions_length {w h : ℚ} {n : ℕ} (hw : 0 < w) (hh : 0 < h) (hn : 1 ≤ n) :
    (computePositions w h n).length = numRowsOf n * numColsOf n := by
  rw [computePositions_eq_map hw hh hn]
  exact length_range_flatMap_map _ _ _

lemma mem_computePositions {w h : ℚ} {n : ℕ} {p : Position} :
    p ∈ computePositions w h n ↔
      ∃ row, row < numRowsOf n ∧ ∃ col, col < numColsOf n ∧
        p = posAt w h n row col ∧ p.x ≤ w ∧ p.y ≤ h := by
  rw [computePositions_rw]
  simp only [List.mem_flatMap, List.mem_filterMap, List.mem_range,
    Option.ite_none_right_eq_some, Option.some_inj]
  constructor
  · rintro ⟨row, hrow, col, hcol, ⟨hx, hy⟩, hp⟩
    exact ⟨row, hrow, col, hcol, hp.symm, hp ▸ hx, hp ▸ hy⟩
  · rintro ⟨row, hrow, col, hcol, hp, hx, hy⟩
    exact ⟨row, hrow, col, hcol, ⟨hp ▸ hx, hp ▸ hy⟩, hp.symm⟩

lemma numColsOf_five : numColsOf 5 = 3 :=
  ceilSqrt_eval (by omega) (Or.inr (by omega))

lemma numRowsOf_five : numRowsOf 5 = 2 := by
  refine numRowsOf_eval (by omega) ?_ ?_ <;> rw [numColsOf_five] <;> norm_num

lemma numColsOf_four : numColsOf 4 = 2 :=
  ceilSqrt_eval (by omega) (Or.inr (by omega))

lemma numRowsOf_four : numRowsOf 4 = 2 := by
  refine numRowsOf_eval (by omega) ?_ ?_ <;> rw [numColsOf_four] <;> norm_num

lemma computePositions_zero (w h : ℚ) : computePositions w h 0 = [] := by
  rw [computePositions_rw, numRowsOf_zero]
  rfl

lemma handleCalculate_eq_invalid (w h : ℚ) {lumensValue luxesValue : Option ℚ}
    (hbad : validationFails lumensValue luxesValue = true) :
    handleCalculate w h lumensValue luxesValue = CalcOutcome.invalidInput := by
  cases lumensValue with
  | none => rfl
  | some lv =>
    cases luxesValue with
    | none => rfl
    | some uv =>
      simp only [validationFails, decide_eq_true_eq] at hbad
      simp only [handleCalculate]
      rw [if_pos hbad]

lemma renderFocusGrid_eq {n : ℕ} (sw w h : ℚ) (hn : n ≠ 0) :
    renderFocusGrid sw w h n = computePositions (sw - 40) ((sw - 40) / (w / h)) n := by
  unfold renderFocusGrid computePositions
  rw [if_neg hn]

/-- Claim C1: for every valid input (all four inputs strictly positive),
the computed fixture count equals `ceil(requiredIlluminance * width * height
/ luminousOutputPerFixture)`, and this count is the smallest integer `≥ 1`
whose total luminous output covers the required flux — the count is never
rounded down. -/
theorem fixtureCount_is_minimal_sufficient (w h u l : ℚ)
    (hw : 0 < w) (hh : 0 < h) (hu : 0 < u) (hl : 0 < l) :
    computeFixtureCount w h u l = ⌈u * (w * h) / l⌉ ∧
    1 ≤ computeFixtureCount w h u l ∧
    u * (w * h) ≤ (computeFixtureCount w h u l : ℚ) * l ∧
    ∀ m : ℤ, 1 ≤ m → u * (w * h) ≤ (m : ℚ) * l → computeFixtureCount w h u l ≤ m := by
  have hq : (0 : ℚ) < u * (w * h) / l := by positivity
  refine ⟨rfl, ?_, ?_, ?_⟩
  · have := Int.ceil_pos.mpr hq
    unfold computeFixtureCount
    omega
  · unfold computeFixtureCount
    have h1 : u * (w * h) / l ≤ (⌈u * (w * h) / l⌉ : ℚ) := Int.le_ceil _
    calc u * (w * h) = u * (w * h) / l * l := by field_simp
    _ ≤ (⌈u * (w * h) / l⌉ : ℚ) * l := mul_le_mul_of_nonneg_right h1 (le_of_lt hl)
  · intro m hm hml
    unfold computeFixtureCount
    rw [Int.ceil_le, div_le_iff₀ hl]
    exact hml

/-- Witness for C1 at the concrete spec scenario
`width = 4, height = 3, requiredIlluminance = 300, luminousOutputPerFixture = 900`. -/
theorem fixtureCount_is_minimal_sufficient_witness :
    (0 : ℚ) < 4 ∧ (0 : ℚ) < 3 ∧ (0 : ℚ) < 300 ∧ (0 : ℚ) < 900 ∧
    (computeFixtureCount 4 3 300 900 = ⌈(300 : ℚ) * (4 * 3) / 900⌉ ∧
     1 ≤ computeFixtureCount 4 3 300 900 ∧
     (300 : ℚ) * (4 * 3) ≤ (computeFixtureCount 4 3 300 900 : ℚ) * 900 ∧
     ∀ m : ℤ, 1 ≤ m → (300 : ℚ) * (4 * 3) ≤ (m : ℚ) * 900 →
       computeFixtureCount 4 3 300 900 ≤ m) :=
  ⟨by norm_num, by norm_num, by norm_num, by norm_num,
   fixtureCount_is_minimal_sufficient 4 3 300 900
     (by norm_num) (by norm_num) (by norm_num) (by norm_num)⟩

/-- Claim C5: for every integer `fixtureCount ≥ 1` the grid shape
`numCols = ceil(sqrt(fixtureCount))`, `numRows = ceil(fixtureCount / numCols)`
satisfies `numCols * numRows ≥ fixtureCount` and
`(numCols - 1) * numRows < fixtureCount` (no redundant column). -/
theorem grid_near_square (n : ℕ) (hn : 1 ≤ n) :
    n ≤ numColsOf n * numRowsOf n ∧ (numColsOf n - 1) * numRowsOf n < n := by
  have h1 : n ≤ numRowsOf n * numColsOf n := le_numRowsOf_mul hn
  have hcsq : n ≤ numColsOf n * numColsOf n := le_ceilSqrt_mul_self n
  have hrlec : numRowsOf n ≤ numColsOf n := numRowsOf_le hn hcsq
  have hpred : (numColsOf n - 1) * (numColsOf n - 1) < n := ceilSqrt_pred_lt hn
  constructor
  · rw [Nat.mul_comm]
    exact h1
  · by_cases hcase : n ≤ (numColsOf n - 1) * numColsOf n
    · have hrle : numRowsOf n ≤ numColsOf n - 1 := numRowsOf_le hn hcase
      calc (numColsOf n - 1) * numRowsOf n
          ≤ (numColsOf n - 1) * (numColsOf n - 1) := Nat.mul_le_mul_left _ hrle
      _ < n := hpred
    · push_neg at hcase
      calc (numColsOf n - 1) * numRowsOf n
          ≤ (numColsOf n - 1) * numColsOf n := Nat.mul_le_mul_left _ hrlec
      _ < n := hcase

/-- Witness for C5 at `fixtureCount = 5` (grid `3 × 2`). -/
theorem grid_near_square_witness :
    1 ≤ 5 ∧ 5 ≤ numColsOf 5 * numRowsOf 5 ∧ (numColsOf 5 - 1) * numRowsOf 5 < 5 :=
  ⟨by norm_num, (grid_near_square 5 (by norm_num)).1, (grid_near_square 5 (by norm_num)).2⟩

/-- Claim C7: for fixed positive `width`, `height` and
`luminousOutputPerFixture`, the computed fixture count is non-decreasing in
`requiredIlluminance`. -/
theorem fixtureCount_monotone (w h l r1 r2 : ℚ) (hw : 0 < w) (hh : 0 < h)
    (hl : 0 < l) (hr1 : 0 < r1) (hr12 : r1 ≤ r2) :
    computeFixtureCount w h r1 l ≤ computeFixtureCount w h r2 l := by
  unfold computeFixtureCount
  apply Int.ceil_mono
  gcongr

/-- Witness for C7 at `width = height = 5`, `luminousOutputPerFixture = 1000`,
`requiredIlluminance` going from `100` to `200`. -/
theorem fixtureCount_monotone_witness :
    (0 : ℚ) < 5 ∧ (0 : ℚ) < 1000 ∧ (0 : ℚ) < 100 ∧ (100 : ℚ) ≤ 200 ∧
    computeFixtureCount 5 5 100 1000 ≤ computeFixtureCount 5 5 200 1000 :=
  ⟨by norm_num, by norm_num, by norm_num, by norm_num,
   fixtureCount_monotone 5 5 1000 100 200
     (by norm_num) (by norm_num) (by norm_num) (by norm_num) (by norm_num)⟩

/-- Counterexample to claim C2: `computeFixtureCount(0, 5, 100, 50)` — width
zero, both user inputs valid — is NOT rejected: `handleCalculate` only
validates the two user inputs (lumens and luxes), so the calculation runs
and yields a zeroed plan (`focusCount = 0`, no positions). -/
theorem width_zero_not_rejected :
    handleCalculate 0 5 (some 50) (some 100) = CalcOutcome.ok 0 [] ∧
    handleCalculate 0 5 (some 50) (some 100) ≠ CalcOutcome.invalidInput := by
  have hfc : computeFixtureCount 0 5 100 50 = 0 := by
    unfold computeFixtureCount
    norm_num
  have hcalc : handleCalculate 0 5 (some 50) (some 100) = CalcOutcome.ok 0 [] := by
    simp only [handleCalculate]
    rw [if_neg (by norm_num), hfc]
    rw [Int.toNat_zero, computePositions_zero]
  exact ⟨hcalc, by rw [hcalc]; exact fun hcon => CalcOutcome.noConfusion hcon⟩

/-- Claim C2, amended: the calculation raises `InvalidInput` exactly for the
inputs the code validates — when `luminousOutputPerFixture` (lumens) or
`requiredIlluminance` (luxes) is missing/`NaN`, zero, or negative — and then
no placement is computed; `width` and `height` are not validated. -/
theorem user_input_validation_rejects (w h : ℚ) (lumensValue luxesValue : Option ℚ)
    (hbad : validationFails lumensValue luxesValue = true) :
    handleCalculate w h lumensValue luxesValue = CalcOutcome.invalidInput :=
  handleCalculate_eq_invalid w h hbad

/-- Witness for the amended C2: `computeFixtureCount(5, 5, -1, 50)`
(negative illuminance) and a `NaN` lumens input are both rejected. -/
theorem user_input_validation_rejects_witness :
    validationFails (some 50) (some (-1)) = true ∧
    handleCalculate 5 5 (some 50) (some (-1)) = CalcOutcome.invalidInput ∧
    validationFails none (some 100) = true ∧
    handleCalculate 5 5 none (some 100) = CalcOutcome.invalidInput := by
  have h1 : validationFails (some 50) (some (-1)) = true := by decide
  have h2 : validationFails none (some 100) = true := rfl
  exact ⟨h1, user_input_validation_rejects 5 5 (some 50) (some (-1)) h1,
         h2, user_input_validation_rejects 5 5 none (some 100) h2⟩

/-- Counterexample to claim C3: at the valid input
`width = 5, height = 5, requiredIlluminance = 200, luminousOutputPerFixture = 1000`
the fixture count is `5` but the grid is `2 × 3 = 6` cells and, in exact
arithmetic, every cell centre passes the inclusion test, so the positions
sequence is LONGER than `fixtureCount`. -/
theorem positions_longer_than_fixtureCount :
    computeFixtureCount 5 5 200 1000 = 5 ∧
    (computePositions 5 5 5).length = 6 ∧
    ¬((computePositions 5 5 5).length ≤ 5) := by
  have hcount : computeFixtureCount 5 5 200 1000 = 5 := by
    unfold computeFixtureCount
    rw [Int.ceil_eq_iff] <;> norm_num
  have hlen : (computePositions 5 5 5).length = 6 := by
    rw [computePositions_length (by norm_num) (by norm_num) (by omega),
      numColsOf_five, numRowsOf_five]
  exact ⟨hcount, hlen, by rw [hlen]; omega⟩

/-- Claim C3, amended: for every valid input the returned positions sequence
has length greater than or equal to `fixtureCount` (not less than or equal);
callers still must not assume `positions.length == fixtureCount`. -/
theorem positions_length_ge_fixtureCount (w h : ℚ) (n : ℕ)
    (hw : 0 < w) (hh : 0 < h) (hn : 1 ≤ n) :
    n ≤ (computePositions w h n).length := by
  rw [computePositions_length hw hh hn]
  exact le_numRowsOf_mul hn

/-- Witness for the amended C3 at `width = height = 5`, `fixtureCount = 5`. -/
theorem positions_length_ge_fixtureCount_witness :
    (0 : ℚ) < 5 ∧ 1 ≤ 5 ∧ 5 ≤ (computePositions 5 5 5).length :=
  ⟨by norm_num, by norm_num,
   positions_length_ge_fixtureCount 5 5 5 (by norm_num) (by norm_num) (by norm_num)⟩

/-- Claim C8: whenever validation fails, the calculation is blocked before
any output is produced — the previously computed `focusCount` and
`distances`, whatever they were, are left exactly as they were, and no
partial or zeroed plan replaces them. -/
theorem validation_failure_keeps_state (w h : ℚ) (lumensValue luxesValue : Option ℚ)
    (s : FormState) (hbad : validationFails lumensValue luxesValue = true) :
    applyCalculate w h lumensValue luxesValue s = s := by
  unfold applyCalculate
  rw [handleCalculate_eq_invalid w h hbad]

/-- Witness for C8: a zero lumens input leaves a previously computed state
untouched. -/
theorem validation_failure_keeps_state_witness :
    validationFails (some 0) (some 100) = true ∧
    applyCalculate 5 5 (some 0) (some 100) ⟨some 7, some []⟩ = ⟨some 7, some []⟩ := by
  have h1 : validationFails (some 0) (some 100) = true := by decide
  exact ⟨h1, validation_failure_keeps_state 5 5 (some 0) (some 100) ⟨some 7, some []⟩ h1⟩

/-- Claim C4: for every positive area and integer `fixtureCount ≥ 1` the
positions are enumerated rows outer, columns inner, zero-indexed — the
flattened sequence is exactly the row-major listing of the cell centres
`(spacingX/2 + col*spacingX, spacingY/2 + row*spacingY)` — and membership is
exactly the cells whose centre passes the inclusion test
`x ≤ width ∧ y ≤ height`. -/
theorem positions_enumeration (w h : ℚ) (n : ℕ) (hw : 0 < w) (hh : 0 < h) (hn : 1 ≤ n) :
    computePositions w h n =
      (List.range (numRowsOf n * numColsOf n)).map
        (fun k => posAt w h n (k / numColsOf n) (k % numColsOf n)) ∧
    ∀ p : Position, p ∈ computePositions w h n ↔
      ∃ row, row < numRowsOf n ∧ ∃ col, col < numColsOf n ∧
        p = posAt w h n row col ∧ p.x ≤ w ∧ p.y ≤ h := by
  refine ⟨?_, fun p => mem_computePositions⟩
  rw [computePositions_eq_map hw hh hn]
  exact range_flatMap_map_eq _ _ _ (numColsOf_pos hn)

/-- Witness for C4 at the concrete spec scenario `width = 4, height = 3,
fixtureCount = 4` (grid `2 × 2`). -/
theorem positions_enumeration_witness :
    (0 : ℚ) < 4 ∧ (0 : ℚ) < 3 ∧ 1 ≤ 4 ∧
    (computePositions 4 3 4 =
      (List.range (numRowsOf 4 * numColsOf 4)).map
        (fun k => posAt 4 3 4 (k / numColsOf 4) (k % numColsOf 4)) ∧
     ∀ p : Position, p ∈ computePositions 4 3 4 ↔
       ∃ row, row < numRowsOf 4 ∧ ∃ col, col < numColsOf 4 ∧
         p = posAt 4 3 4 row col ∧ p.x ≤ 4 ∧ p.y ≤ 3) :=
  ⟨by norm_num, by norm_num, by norm_num,
   positions_enumeration 4 3 4 (by norm_num) (by norm_num) (by norm_num)⟩

/-- Claim C6: for every positive area and integer `fixtureCount ≥ 1`, every
position in the returned sequence satisfies `0 ≤ x ≤ width` and
`0 ≤ y ≤ height`. -/
theorem positions_within_bounds (w h : ℚ) (n : ℕ) (hw : 0 < w) (hh : 0 < h) (hn : 1 ≤ n) :
    ∀ p ∈ computePositions w h n, 0 ≤ p.x ∧ p.x ≤ w ∧ 0 ≤ p.y ∧ p.y ≤ h := by
  intro p hp
  rw [mem_computePositions] at hp
  obtain ⟨row, hrow, col, hcol, hpeq, hx, hy⟩ := hp
  refine ⟨?_, hx, ?_, hy⟩
  · rw [hpeq]
    exact cell_coord_nonneg (le_of_lt hw) (numColsOf n) col
  · rw [hpeq]
    exact cell_coord_nonneg (le_of_lt hh) (numRowsOf n) row

/-- Witness for C6 at `width = 4, height = 3, fixtureCount = 4`. -/
theorem positions_within_bounds_witness :
    (0 : ℚ) < 4 ∧ (0 : ℚ) < 3 ∧ 1 ≤ 4 ∧
    ∀ p ∈ computePositions 4 3 4, 0 ≤ p.x ∧ p.x ≤ 4 ∧ 0 ≤ p.y ∧ p.y ≤ 3 :=
  ⟨by norm_num, by norm_num, by norm_num,
   positions_within_bounds 4 3 4 (by norm_num) (by norm_num) (by norm_num)⟩

/-- Claim C9 (implicit): under exact arithmetic every cell centre lies
strictly inside the rectangle, so the inclusion test accepts every cell and
the returned sequence has length exactly `numRows * numCols ≥ fixtureCount`. -/
theorem exact_grid_keeps_every_cell (w h : ℚ) (n : ℕ)
    (hw : 0 < w) (hh : 0 < h) (hn : 1 ≤ n) :
    (∀ row, row < numRowsOf n → ∀ col, col < numColsOf n →
        (posAt w h n row col).x < w ∧ (posAt w h n row col).y < h) ∧
    (computePositions w h n).length = numRowsOf n * numColsOf n ∧
    n ≤ (computePositions w h n).length := by
  refine ⟨?_, computePositions_length hw hh hn, ?_⟩
  · intro row hrow col hcol
    exact ⟨posAt_x_lt h hw hn hcol row, posAt_y_lt w hh hn hrow col⟩
  · rw [computePositions_length hw hh hn]
    exact le_numRowsOf_mul hn

/-- Witness for C9 at `width = height = 5, fixtureCount = 5`. -/
theorem exact_grid_keeps_every_cell_witness :
    (0 : ℚ) < 5 ∧ 1 ≤ 5 ∧
    ((∀ row, row < numRowsOf 5 → ∀ col, col < numColsOf 5 →
        (posAt 5 5 5 row col).x < 5 ∧ (posAt 5 5 5 row col).y < 5) ∧
     (computePositions 5 5 5).length = numRowsOf 5 * numColsOf 5 ∧
     5 ≤ (computePositions 5 5 5).length) :=
  ⟨by norm_num, by norm_num,
   exact_grid_keeps_every_cell 5 5 5 (by norm_num) (by norm_num) (by norm_num)⟩

/-- Claim C10 (implicit): `renderFocusGrid` computes the same grid shape and
applies the same cell-centre and inclusion logic over the proportionally
scaled container dimensions, so it renders exactly as many dots as
`handleCalculate` produces positions for the same `numFoci`. -/
theorem renderFocusGrid_matches_positions (sw w h : ℚ) (n : ℕ)
    (hsw : 40 < sw) (hw : 0 < w) (hh : 0 < h) (hn : 1 ≤ n) :
    renderFocusGrid sw w h n = computePositions (sw - 40) ((sw - 40) / (w / h)) n ∧
    (renderFocusGrid sw w h n).length = (computePositions w h n).length := by
  have hcw : (0 : ℚ) < sw - 40 := by linarith
  have hch : (0 : ℚ) < (sw - 40) / (w / h) := div_pos hcw (div_pos hw hh)
  have heq := renderFocusGrid_eq sw w h (by omega : n ≠ 0)
  refine ⟨heq, ?_⟩
  rw [heq, computePositions_length hcw hch hn, computePositions_length hw hh hn]

/-- Witness for C10 at `screenWidth = 360, width = 4, height = 3, numFoci = 4`. -/
theorem renderFocusGrid_matches_positions_witness :
    (40 : ℚ) < 360 ∧ (0 : ℚ) < 4 ∧ (0 : ℚ) < 3 ∧ 1 ≤ 4 ∧
    (renderFocusGrid 360 4 3 4 = computePositions (360 - 40) ((360 - 40) / (4 / 3)) 4 ∧
     (renderFocusGrid 360 4 3 4).length = (computePositions 4 3 4).length) :=
  ⟨by norm_num, by norm_num, by norm_num, by norm_num,
   renderFocusGrid_matches_positions 360 4 3 4
     (by norm_num) (by norm_num) (by norm_num) (by norm_num)⟩
